import Mathlib

/-!
Verification of the fault-geometry and dip-projection pipeline of the
GemPy_Model_Mexico_Basin repository (Scripts/01_Extend_faults.py,
Scripts/02_Calculate_apparent_dip.py, Scripts/03_Add_faults.py).

The Python code is shallowly embedded:
* map coordinates that only feed index arithmetic or exact comparisons are
  modelled over `ℚ` (exact, executable);
* real-valued trigonometry (`math.sin`, `math.tan`, `math.atan`,
  `math.acos`, `math.hypot`) is modelled over `ℝ` with Mathlib's
  `Real.sin`, `Real.tan`, `Real.arctan`, `Real.arccos`, `Real.sqrt`;
* Python exceptions are modelled with `Except PyError`;
* the shapely polyline/polygon point sets used by `01_Extend_faults.py`
  are modelled as subsets of `ℝ × ℝ`.
-/

/-- The Python exceptions raised by the scripts, by raise site:
`typeError` and `zeroLengthError` and `outOfRangeError` are the three
`ValueError`s of `02_Calculate_apparent_dip.py` (wrong geometry type in
`calculate_angle`, zero-length chord in `calculate_angle`, domain check in
`calculate_apparent_dip`); `indexError` is numpy / list `IndexError`. -/
inductive PyError where
  | typeError
  | zeroLengthError
  | outOfRangeError
  | indexError
deriving DecidableEq

/-- A planimetric (map) coordinate pair, kept exact over `ℚ`. -/
abbrev QPoint : Type := ℚ × ℚ

/-- A point of a section plane or of the real-valued geometric model. -/
abbrev RPoint : Type := ℝ × ℝ

/-! ## Script 02: the DEM and `get_elevation`

`load_data` opens the raster with rasterio; `get_elevation` does
`row, col = dem.index(x, y); dem.read(1)[row, col]`.  A north-up raster
with origin `(x0, y0)` (top-left corner) and positive pixel sizes
`px, py` maps `(x, y)` to `row = ⌊(y0 - y)/py⌋`, `col = ⌊(x - x0)/px⌋`
(rasterio's `index` uses `math.floor`).  The numpy array lookup accepts
negative indices in `[-n, 0)` by wrapping them to `i + n`, and raises
`IndexError` otherwise. -/

/-- A single-band in-memory raster: top-left corner `(x0, y0)`, pixel
sizes `px, py > 0`, and the band as rows of cell values (row 0 at the
top, as `dem.read(1)` returns). -/
structure DEM where
  x0 : ℚ
  y0 : ℚ
  px : ℚ
  py : ℚ
  data : List (List ℚ)

/-- rasterio `DatasetReader.index(x, y)` for a north-up affine transform:
`(row, col) = (⌊(y0 - y)/py⌋, ⌊(x - x0)/px⌋)`. -/
def demIndex (dem : DEM) (x y : ℚ) : ℤ × ℤ :=
  (⌊(dem.y0 - y) / dem.py⌋, ⌊(x - dem.x0) / dem.px⌋)

/-- numpy 1-axis index resolution: an index `i` into an axis of length
`n` is valid when `-n ≤ i < n`; a negative valid index wraps to `i + n`.
Out of that range numpy raises `IndexError` (`none` here). -/
def npIndex (n : ℕ) (i : ℤ) : Option ℕ :=
  if 0 ≤ i ∧ i < (n : ℤ) then some i.toNat
  else if -(n : ℤ) ≤ i ∧ i < 0 then some (i + (n : ℤ)).toNat
  else none

/-- numpy 2-D element access `a[r, c]` with numpy's negative-index
wrap-around on both axes. -/
def npGet2 (a : List (List ℚ)) (r c : ℤ) : Except PyError ℚ :=
  match npIndex a.length r with
  | none => .error .indexError
  | some ri =>
    match a.get? ri with
    | none => .error .indexError
    | some row =>
      match npIndex row.length c with
      | none => .error .indexError
      | some ci =>
        match row.get? ci with
        | none => .error .indexError
        | some v => .ok v

/-- `get_elevation` of `02_Calculate_apparent_dip.py`:
`row, col = dem.index(x, y); elevation = dem.read(1)[row, col]`. -/
def get_elevation (x y : ℚ) (dem : DEM) : Except PyError ℚ :=
  npGet2 dem.data (demIndex dem x y).1 (demIndex dem x y).2

/-- The map region actually covered by the raster's cells:
`x ∈ [x0, x0 + cols·px)` and `y ∈ (y0 - rows·py, y0]`.  A coordinate
outside this region has no covering cell. -/
def outsideCoverage (dem : DEM) (x y : ℚ) : Prop :=
  x < dem.x0 ∨ dem.x0 + (dem.data.headI.length : ℚ) * dem.px ≤ x ∨
  y ≤ dem.y0 - (dem.data.length : ℚ) * dem.py ∨ dem.y0 < y

instance (dem : DEM) (x y : ℚ) : Decidable (outsideCoverage dem x y) := by
  unfold outsideCoverage; infer_instance

/-! ## Script 01: `count_connections`

`count_connections` collects, for every fault of a group, the first and
last coordinate of its geometry, and counts how often each such point
occurs among all collected endpoints, using Python `list.count`, i.e.
shapely `Point.__eq__`, i.e. exact coordinate equality. -/

/-- `get_endpoints` of `01_Extend_faults.py`: the first and last
coordinate of a line.  (Python raises on an empty coordinate list; the
model is total via `headI`/`getLastI` and is only ever applied to
non-empty lines, as in the pipeline.) -/
def get_endpoints (coords : List QPoint) : QPoint × QPoint :=
  (coords.headI, coords.getLastI)

/-- `count_connections` of `01_Extend_faults.py`, for one group of fault
geometries (given in group order): for each fault, the pair
(occurrences of its start point, occurrences of its end point) among all
endpoints of the group, compared by exact coordinate equality. -/
def count_connections (group : List (List QPoint)) : List (ℕ × ℕ) :=
  let endpoints := group.map get_endpoints
  let all_points := endpoints.flatMap (fun pr => [pr.1, pr.2])
  endpoints.map (fun pr => (all_points.count pr.1, all_points.count pr.2))

/-! ## Script 02: `save_results`

`save_results` builds a GeoDataFrame from the intersection records and
applies `drop_duplicates(subset=["section_id", "fault_id"])`, which
keeps the first record of every `(section_id, fault_id)` key. -/

/-- The dip side attribute `Side_Dip` of a fault (`"L"` / `"R"` in the
shapefile, Left / Right in the spec's data model). -/
inductive DipSide where
  | L
  | R
deriving DecidableEq

/-- One intersection record, the dict appended by
`process_intersections` of `02_Calculate_apparent_dip.py`. -/
structure IntersectionRecord where
  geometry : QPoint
  elevation : ℚ
  distance : ℝ
  angle : ℝ
  azimuth : ℚ
  apparent_dip : ℝ
  true_dip : ℝ
  dip_side : DipSide
  section_id : String
  fault_id : String
  dip_direction : String

/-- The de-duplication key of `save_results`. -/
def keyOf (r : IntersectionRecord) : String × String :=
  (r.section_id, r.fault_id)

/-- pandas `drop_duplicates(subset=["section_id","fault_id"])` with the
default `keep="first"`: keep a record only if its key was not seen in an
earlier record. -/
def dropDupAux (seen : List (String × String)) :
    List IntersectionRecord → List IntersectionRecord
  | [] => []
  | r :: rs =>
    if keyOf r ∈ seen then dropDupAux seen rs
    else r :: dropDupAux (keyOf r :: seen) rs

/-- `save_results` of `02_Calculate_apparent_dip.py`, restricted to the
data it retains (the rows of the shapefile it writes). -/
def save_results (records : List IntersectionRecord) : List IntersectionRecord :=
  dropDupAux [] records

lemma countP_dropDupAux (k : String × String) :
    ∀ (l : List IntersectionRecord) (seen : List (String × String)),
      (dropDupAux seen l).countP (fun r => decide (keyOf r = k)) =
        if k ∈ seen then 0 else if k ∈ l.map keyOf then 1 else 0 := by
  intro l
  induction l with
  | nil => intro seen; by_cases h : k ∈ seen <;> simp [dropDupAux, h]
  | cons r rs ih =>
    intro seen
    by_cases hr : keyOf r ∈ seen
    · rw [dropDupAux, if_pos hr, ih seen]
      by_cases hk : k ∈ seen
      · simp [hk]
      · have hne : ¬ k = keyOf r := fun h => hk (h.symm ▸ hr)
        simp [hk, List.mem_cons, hne]
    · rw [dropDupAux, if_neg hr, List.countP_cons, ih (keyOf r :: seen)]
      by_cases hk : k ∈ seen
      · have hne : ¬ keyOf r = k := fun h => hr (h ▸ hk)
        simp [hk, List.mem_cons, hne]
      · by_cases hkr : k = keyOf r
        · simp [hkr, List.mem_cons, hk, hr]
        · have hne : ¬ keyOf r = k := fun h => hkr h.symm
          simp [List.mem_cons, hk, hkr, hne]

/-! ## Script 01: polyline point sets and `extend_fault`

The geometry handled by `extend_fault` is modelled as subsets of the
real plane: a shapely `LineString` is the union of its closed vertex-to-
vertex segments, and the shapely `intersection` with the model-area
polygon is set intersection with the polygon's point set. -/

/-- The closed straight segment from `a` to `b` in the plane. -/
def seg (a b : RPoint) : Set RPoint :=
  {p | ∃ t : ℝ, 0 ≤ t ∧ t ≤ 1 ∧
    p = (a.1 + t * (b.1 - a.1), a.2 + t * (b.2 - a.2))}

/-- The point set of a polyline given by its vertex list. -/
def polylineSet : List RPoint → Set RPoint
  | [] => ∅
  | [a] => {a}
  | a :: b :: rest => seg a b ∪ polylineSet (b :: rest)

/-- The extension pieces built by `extend_fault` of
`01_Extend_faults.py` (`new_geometries`): a two-point line before the
start point when the start has exactly one connection, and a two-point
line after the end point when the end has exactly one connection, both
along the start→end direction `d`, scaled by `factor`. -/
def extensionGeoms (s e d : RPoint) (conn : ℕ × ℕ) (factor : ℝ) :
    List (List RPoint) :=
  (if conn.1 = 1 then [[(s.1 - d.1 * factor, s.2 - d.2 * factor), s]] else []) ++
  (if conn.2 = 1 then [[e, (e.1 + d.1 * factor, e.2 + d.2 * factor)]] else [])

/-- The vertex list of `extended_line` in `extend_fault`:
`[start_point] + [pt for geom in new_geometries for pt in geom.coords] + [end_point]`.
Note it is built from the original line's two endpoints only — the
original's intermediate vertices are not included. -/
def combinedCoords (coords : List RPoint) (conn : ℕ × ℕ) (factor : ℝ) :
    List RPoint :=
  let s := coords.headI
  let e := coords.getLastI
  let d : RPoint := (e.1 - s.1, e.2 - s.2)
  [s] ++ (extensionGeoms s e d conn factor).flatten ++ [e]

/-- `extend_fault` of `01_Extend_faults.py`, as a map on point sets:
if at least one endpoint has exactly one connection (so
`new_geometries` is non-empty), the combined polyline is intersected
with the model-area region and that clip is returned as-is; otherwise
the original geometry is returned.  (Python indexes `coords[0]` /
`coords[-1]`, so the model presumes a non-empty vertex list, as the
pipeline guarantees.) -/
def extend_fault (coords : List RPoint) (conn : ℕ × ℕ)
    (region : Set RPoint) (factor : ℝ := 1000) : Set RPoint :=
  if conn.1 = 1 ∨ conn.2 = 1 then
    polylineSet (combinedCoords coords conn factor) ∩ region
  else
    polylineSet coords

/-! ## Script 02: trigonometric computations over `ℝ` -/

/-- `math.radians`. -/
noncomputable def radians (x : ℝ) : ℝ := x * Real.pi / 180

/-- `math.degrees`. -/
noncomputable def degrees (x : ℝ) : ℝ := x * 180 / Real.pi

/-- `calculate_apparent_dip` of `02_Calculate_apparent_dip.py`:
raise `ValueError` unless `0 ≤ angle ≤ 180` and `0 ≤ dip ≤ 90`,
otherwise `degrees(atan(sin(radians angle) * tan(radians dip)))`. -/
noncomputable def calculate_apparent_dip (angle_deg dip_deg : ℝ) :
    Except PyError ℝ :=
  if ¬ (0 ≤ angle_deg ∧ angle_deg ≤ 180) ∨ ¬ (0 ≤ dip_deg ∧ dip_deg ≤ 90) then
    .error .outOfRangeError
  else
    .ok (degrees (Real.arctan
      (Real.sin (radians angle_deg) * Real.tan (radians dip_deg))))

/-- The geometry values flowing through `02_Calculate_apparent_dip.py`:
`calculate_angle` accepts exactly `LineString` and `MultiLineString`
(any other shapely type raises `ValueError`, which the model leaves out
since its geometry type only has the two accepted shapes). -/
inductive PyGeom where
  | lineString (coords : List QPoint)
  | multiLineString (parts : List (List QPoint))

/-- The `geoms[0]` selection of `calculate_angle`: a `MultiLineString`
is replaced by its first part (`IndexError` on an empty multi-part). -/
def firstPart : PyGeom → Except PyError (List QPoint)
  | .lineString c => .ok c
  | .multiLineString [] => .error .indexError
  | .multiLineString (p :: _) => .ok p

/-- `coords[0]` and `coords[-1]` of a line (`IndexError` when empty). -/
def chordEnds (c : List QPoint) : Except PyError (QPoint × QPoint) :=
  match c with
  | [] => .error .indexError
  | a :: rest => .ok (a, (a :: rest).getLastI)

/-- `math.hypot` of a chord vector (coordinates come from the `ℚ`-valued
map geometry and are cast into `ℝ`). -/
noncomputable def hypotQ (v : ℚ × ℚ) : ℝ :=
  Real.sqrt ((v.1 : ℝ) ^ 2 + (v.2 : ℝ) ^ 2)

/-- The first-to-last chord vector `(x_last - x_first, y_last - y_first)`
of a line given by its two chord ends. -/
def chordVec (e : QPoint × QPoint) : QPoint :=
  (e.2.1 - e.1.1, e.2.2 - e.1.2)

/-- The numeric core of `calculate_angle`: `ValueError` when either
chord has zero length, otherwise the dot-product / arccos formula with
the cosine clamped to `[-1, 1]` exactly as in the script:
`max(-1, min(1, dot_product / (mag_v1 * mag_v2)))`. -/
noncomputable def angleOfVecs (v1 v2 : QPoint) : Except PyError ℝ :=
  if hypotQ v1 = 0 ∨ hypotQ v2 = 0 then
    .error .zeroLengthError
  else
    .ok (degrees (Real.arccos (max (-1) (min 1
      (((v1.1 : ℝ) * (v2.1 : ℝ) + (v1.2 : ℝ) * (v2.2 : ℝ)) /
        (hypotQ v1 * hypotQ v2))))))

/-- `calculate_angle` of `02_Calculate_apparent_dip.py`: take the first
part of any `MultiLineString`, form the first-to-last chord vector of
each line, raise `ValueError` if either chord has zero length, clamp
the cosine to `[-1, 1]` and return the angle in degrees. -/
noncomputable def calculate_angle (g1 g2 : PyGeom) : Except PyError ℝ := do
  let c1 ← firstPart g1
  let c2 ← firstPart g2
  let e1 ← chordEnds c1
  let e2 ← chordEnds c2
  angleOfVecs (chordVec e1) (chordVec e2)

/-- `calculate_distance` of `02_Calculate_apparent_dip.py`: shapely's
planar Euclidean distance between the section start and the
intersection point. -/
noncomputable def calculate_distance (a b : QPoint) : ℝ :=
  hypotQ (b.1 - a.1, b.2 - a.2)

/-! ## Script 02: `process_intersections`

The double loop over sections and faults.  The shapely call
`section.geometry.intersection(fault.geometry)` is an external geometry
kernel; the model receives it as a function argument `inter` producing
the kind of result the script then filters (a single `Point`, a
`MultiPoint`, or anything else, which is ignored).  Python exceptions
abort the whole run, which the `Except` monad mirrors. -/

/-- A row of the sections shapefile. -/
structure CrossSection where
  name : String
  geometry : PyGeom

/-- A row of the faults shapefile, with the attributes the script reads. -/
structure FaultRow where
  fault : String
  geometry : PyGeom
  dip : ℝ
  azimuth : ℚ
  side_dip : DipSide
  dip_direct : String

/-- The shapely result of intersecting a section with a fault, as
classified by the script: a single point, a multi-point, or any other
geometry (empty, line, collection, ...). -/
inductive InterResult where
  | single (p : QPoint)
  | multi (ps : List QPoint)
  | other

/-- The abstract geometry kernel: what
`section.geometry.intersection(fault.geometry)` returns for each pair. -/
abbrev InterFun : Type := CrossSection → FaultRow → InterResult

/-- The `geometries` list of the script: `[intersection]` for a `Point`,
its `geoms` for a `MultiPoint`, `[]` otherwise. -/
def geometriesOf : InterResult → List QPoint
  | .single p => [p]
  | .multi ps => ps
  | .other => []

/-- `section.geometry.coords` — only a `LineString` exposes `coords`;
shapely raises on a multi-part geometry. -/
def geomCoords : PyGeom → Except PyError (List QPoint)
  | .lineString c => .ok c
  | .multiLineString _ => .error .typeError

/-- The per-point body of the inner loop of `process_intersections`, in
the script's evaluation order: elevation, section start point, distance,
angle, apparent dip, then the record. -/
noncomputable def processPoint (dem : DEM) (sec : CrossSection)
    (flt : FaultRow) (p : QPoint) : Except PyError IntersectionRecord := do
  let elevation ← get_elevation p.1 p.2 dem
  let scoords ← geomCoords sec.geometry
  let start ← (match scoords with
    | [] => .error .indexError
    | a :: _ => .ok a)
  let distance := calculate_distance start p
  let angle ← calculate_angle sec.geometry flt.geometry
  let apparent_dip ← calculate_apparent_dip angle flt.dip
  pure {
    geometry := p
    elevation := elevation
    distance := distance
    angle := angle
    azimuth := flt.azimuth
    apparent_dip := apparent_dip
    true_dip := flt.dip
    dip_side := flt.side_dip
    section_id := sec.name
    fault_id := flt.fault
    dip_direction := flt.dip_direct }

/-- All records of one (section, fault) pair: one per crossing point. -/
noncomputable def processPair (inter : InterFun) (dem : DEM)
    (sec : CrossSection) (flt : FaultRow) :
    Except PyError (List IntersectionRecord) :=
  (geometriesOf (inter sec flt)).mapM (processPoint dem sec flt)

/-- `process_intersections` of `02_Calculate_apparent_dip.py`: the
nested loops, accumulating records in loop order; any exception raised
for one pair propagates out of the whole function. -/
noncomputable def process_intersections (inter : InterFun) (dem : DEM)
    (sections : List CrossSection) (faults : List FaultRow) :
    Except PyError (List IntersectionRecord) := do
  let nested ← sections.mapM (fun sec => do
    let perFault ← faults.mapM (fun flt => processPair inter dem sec flt)
    pure perFault.flatten)
  pure nested.flatten

/-! ## Script 03: `add_faults_to_sections`

Per section: load its features, collect the `Uni` tags already present,
then for each dip record of that section in order, skip it if its fault
id is already present, skip it if the apparent dip is (numerically)
horizontal, otherwise append the projected two-vertex segment. -/

/-- One feature of a section shapefile: its geometry in the section's
local (distance, elevation) plane, and its `Uni` tag. -/
structure Feature where
  geometry : List RPoint
  uni : String

/-- A row of the dip shapefile as `03_Add_faults.py` reads it (the
shapefile column `apparent_d` is the truncated name of `apparent_dip`). -/
structure DipRow where
  distance : ℝ
  elevation : ℝ
  apparent_d : ℝ
  dip_side : DipSide
  fault_id : String

/-- `math.isclose(a, b, abs_tol=tol)` with the default relative
tolerance `rel = 1e-9`: `|a - b| ≤ max (rel * max |a| |b|) tol`. -/
def isclose (a b rel tol : ℝ) : Prop :=
  |a - b| ≤ max (rel * max |a| |b|) tol

/-- The skip guard of `03_Add_faults.py`:
`apparent_dip_rad == 0 or math.isclose(math.tan(apparent_dip_rad), 0, abs_tol=1e-6)`. -/
noncomputable def skipDip (apparent_dip_rad : ℝ) : Prop :=
  apparent_dip_rad = 0 ∨
    isclose (Real.tan apparent_dip_rad) 0 (1e-9) (1e-6)

/-- The dip-side direction factor:
`direction = -1 if fault["dip_side"] == "L" else 1`. -/
def directionOf : DipSide → ℝ
  | .L => -1
  | .R => 1

/-- The projected two-vertex fault segment of `03_Add_faults.py`:
`length = max_depth / tan(apparent_dip_rad)`,
`x_end = x_start + direction * abs(length)`, `y_end = max_depth`. -/
noncomputable def projectSegment (max_depth : ℝ) (d : DipRow) : Feature :=
  let apparent_dip_rad := radians d.apparent_d
  let length := max_depth / Real.tan apparent_dip_rad
  let x_end := d.distance + directionOf d.dip_side * |length|
  { geometry := [(d.distance, d.elevation), (x_end, max_depth)]
    uni := d.fault_id }

open Classical in
/-- The `new_faults` accumulation loop of `03_Add_faults.py`: the set of
already-present `Uni` tags (`existing`) is computed once, before the
loop, and not updated while the loop runs. -/
noncomputable def newFaultsAux (max_depth : ℝ) (existing : List String) :
    List DipRow → List Feature
  | [] => []
  | d :: ds =>
    if d.fault_id ∈ existing then newFaultsAux max_depth existing ds
    else if skipDip (radians d.apparent_d) then newFaultsAux max_depth existing ds
    else projectSegment max_depth d :: newFaultsAux max_depth existing ds

/-- One section's pass of `add_faults_to_sections`: the section's
original features followed by the newly projected fault segments (when
`new_faults` is empty the original frame is saved unchanged, which the
append of `[]` matches). -/
noncomputable def processSection (max_depth : ℝ) (feats : List Feature)
    (dips : List DipRow) : List Feature :=
  feats ++ newFaultsAux max_depth (feats.map Feature.uni) dips

/-! ## Claim theorems -/

/-- A concrete 2×2 raster: top-left corner `(0, 10)`, pixel size 1, so
it covers `x ∈ [0, 2)`, `y ∈ (8, 10]`; row 0 is `[1, 2]`, row 1 is
`[3, 4]`. -/
def demTiny : DEM := ⟨0, 10, 1, 1, [[1, 2], [3, 4]]⟩

lemma demTiny_index_above : demIndex demTiny 1 11 = (-1, 1) := by
  have h1 : ((demTiny.y0 - 11) / demTiny.py : ℚ) = ((-1 : ℤ) : ℚ) := by
    norm_num [demTiny]
  have h2 : ((1 - demTiny.x0) / demTiny.px : ℚ) = ((1 : ℤ) : ℚ) := by
    norm_num [demTiny]
  rw [demIndex, h1, h2, Int.floor_intCast, Int.floor_intCast]

/-- Claim C6 (code bug): the claim says an elevation lookup outside the
raster's coverage always fails with a missing-data error and never
silently returns a substitute value.  The code violates this: at
`(x, y) = (1, 11)`, one unit above the raster's top edge, `dem.index`
yields row `-1`, and numpy's negative-index wrap-around silently
returns the elevation `4` of a bottom-row cell instead of raising
`IndexError`. -/
theorem elevation_wraparound_bug :
    outsideCoverage demTiny 1 11 ∧
      get_elevation 1 11 demTiny = .ok 4 := by
  constructor
  · norm_num [outsideCoverage, demTiny]
  · rw [get_elevation, demTiny_index_above]
    rfl

lemma count_connections_two_faults (a p q b : QPoint)
    (hap : a ≠ p) (haq : a ≠ q) (hab : a ≠ b)
    (hpq : p ≠ q) (hpb : p ≠ b) (hqb : q ≠ b) :
    count_connections [[a, p], [q, b]] = [(1, 1), (1, 1)] := by
  simp [count_connections, get_endpoints, List.getLastI, List.count_cons,
    List.count_nil, hap, haq, hab, hpq, hpb, hqb,
    hap.symm, haq.symm, hab.symm, hpq.symm, hpb.symm, hqb.symm]

/-- The `10⁻¹²` coordinate offset of the near-touching junction. -/
def tinyEps : ℚ := 1 / 1000000000000

lemma near_touch_counts :
    count_connections [[(0, 0), (1, 1)], [((1 : ℚ), 1 + tinyEps), (2, 2)]] =
      [(1, 1), (1, 1)] := by
  apply count_connections_two_faults <;>
    simp [Prod.ext_iff, tinyEps]

/-- Claim C4 (counterexample): the claim says endpoint coordinates that
differ by less than a tolerance are counted as the same endpoint, i.e.
the comparison is not exact equality.  In the code the count uses exact
coordinate equality: two two-vertex faults whose touching endpoints
differ by only `10⁻¹²` get multiplicities `(1, 1)` and `(1, 1)` instead
of the `(1, 2)` and `(2, 1)` that any same-endpoint identification
would produce. -/
theorem count_connections_exact_eq_cex :
    count_connections [[(0, 0), (1, 1)], [((1 : ℚ), 1 + tinyEps), (2, 2)]] =
        [(1, 1), (1, 1)] ∧
      ¬ count_connections [[(0, 0), (1, 1)], [((1 : ℚ), 1 + tinyEps), (2, 2)]] =
        [(1, 2), (2, 1)] := by
  refine ⟨near_touch_counts, ?_⟩
  rw [near_touch_counts]
  decide

/-- Claim C4 (amended): endpoint multiplicities are computed by exact
coordinate equality — whenever the four endpoints of two two-vertex
faults are pairwise distinct, no matter how small the differences,
every endpoint gets multiplicity 1; no tolerance is applied. -/
theorem count_connections_exact_eq (a p q b : QPoint)
    (hap : a ≠ p) (haq : a ≠ q) (hab : a ≠ b)
    (hpq : p ≠ q) (hpb : p ≠ b) (hqb : q ≠ b) :
    count_connections [[a, p], [q, b]] = [(1, 1), (1, 1)] :=
  count_connections_two_faults a p q b hap haq hab hpq hpb hqb

/-- Witness for C4's amended theorem, at the near-touching pair: the
`10⁻¹²` offset keeps all endpoints distinct, so every multiplicity
is 1. -/
theorem count_connections_exact_eq_witness :
    count_connections [[(0, 0), (1, 1)], [((1 : ℚ), 1 + tinyEps), (2, 2)]] =
      [(1, 1), (1, 1)] :=
  count_connections_exact_eq (0, 0) (1, 1) (1, 1 + tinyEps) (2, 2)
    (by simp [Prod.ext_iff])
    (by simp [Prod.ext_iff, tinyEps])
    (by simp [Prod.ext_iff])
    (by simp [Prod.ext_iff, tinyEps])
    (by simp [Prod.ext_iff])
    (by simp [Prod.ext_iff, tinyEps])

/-- Claim C2: after de-duplication, the saved output retains exactly one
record per `(section_id, fault_id)` key that occurs among the raw
crossing records — for any pair with at least one raw record, exactly
one record survives in the saved output. -/
theorem engine_dedup_retains_one (l : List IntersectionRecord)
    (k : String × String) (hk : k ∈ l.map keyOf) :
    (save_results l).countP (fun r => decide (keyOf r = k)) = 1 := by
  rw [save_results, countP_dropDupAux]
  simp [hk]

/-- Two raw crossing records of the same (section, fault) pair. -/
def recA : IntersectionRecord :=
  ⟨(0, 0), 5, 10, 90, 0, 45, 45, .R, "S1", "F1", "NE"⟩

/-- A second crossing record of the same pair (a different point). -/
def recB : IntersectionRecord :=
  ⟨(1, 1), 6, 20, 90, 0, 45, 45, .R, "S1", "F1", "NE"⟩

/-- Witness for C2: a pair with two raw crossing records keeps exactly
one record after `save_results`. -/
theorem engine_dedup_retains_one_witness :
    (save_results [recA, recB]).countP
      (fun r => decide (keyOf r = ("S1", "F1"))) = 1 :=
  engine_dedup_retains_one [recA, recB] ("S1", "F1")
    (by simp [keyOf, recA, recB])

/-! ### Helper lemmas about segments and polyline point sets -/

lemma left_mem_seg (a b : RPoint) : a ∈ seg a b :=
  ⟨0, le_rfl, zero_le_one, by simp⟩

lemma right_mem_seg (a b : RPoint) : b ∈ seg a b :=
  ⟨1, zero_le_one, le_rfl, by simp⟩

lemma polylineSet_pair (a b : RPoint) : polylineSet [a, b] = seg a b := by
  have h : polylineSet [a, b] = seg a b ∪ {b} := rfl
  rw [h, Set.union_eq_self_of_subset_right
    (Set.singleton_subset_iff.2 (right_mem_seg a b))]

lemma polylineSet_quad (a b c d : RPoint) :
    polylineSet [a, b, c, d] = seg a b ∪ (seg b c ∪ seg c d) := by
  have h : polylineSet [a, b, c, d] =
      seg a b ∪ (seg b c ∪ (seg c d ∪ {d})) := rfl
  rw [h, Set.union_eq_self_of_subset_right
    (Set.singleton_subset_iff.2 (right_mem_seg c d))]

lemma polylineSet_nonempty (coords : List RPoint) (h : coords ≠ []) :
    (polylineSet coords).Nonempty := by
  match coords with
  | [a] => exact ⟨a, rfl⟩
  | a :: b :: rest => exact ⟨a, Or.inl (left_mem_seg a b)⟩

lemma extend_fault_clip (coords : List RPoint) (conn : ℕ × ℕ)
    (region : Set RPoint) (factor : ℝ) (h : conn.1 = 1 ∨ conn.2 = 1) :
    extend_fault coords conn region factor =
      polylineSet (combinedCoords coords conn factor) ∩ region := by
  rw [extend_fault, if_pos h]

lemma combinedCoords_start_dangling (s e : RPoint) (c2 : ℕ) (h2 : c2 ≠ 1)
    (factor : ℝ) :
    combinedCoords [s, e] (1, c2) factor =
      [s, (s.1 - (e.1 - s.1) * factor, s.2 - (e.2 - s.2) * factor), s, e] := by
  simp [combinedCoords, extensionGeoms, h2, List.getLastI]

lemma combinedCoords_end_dangling (s e : RPoint) (c1 : ℕ) (h1 : c1 ≠ 1)
    (factor : ℝ) :
    combinedCoords [s, e] (c1, 1) factor =
      [s, e, (e.1 + (e.1 - s.1) * factor, e.2 + (e.2 - s.2) * factor), e] := by
  simp [combinedCoords, extensionGeoms, h1, List.getLastI]

lemma combinedCoords_bent :
    combinedCoords [((0 : ℝ), (0 : ℝ)), (1, 1), (2, 0)] (1, 2) 1000 =
      [(0, 0), (-2000, 0), (0, 0), (2, 0)] := by
  norm_num [combinedCoords, extensionGeoms, List.getLastI]

/-- Claim C3 (counterexample): the claim says the extended geometry of a
fault with exactly one dangling endpoint is a strict superset, in map
extent, of the original polyline.  The code rebuilds the combined line
from the original's two endpoints only, so the bent three-vertex fault
`(0,0)–(1,1)–(2,0)` with a dangling start (connections `(1, 2)`) is
replaced — even with no clipping, `region = univ` — by a polyline along
the x-axis that misses the original's interior vertex `(1,1)`: the
output is not a superset of the original at all. -/
theorem extender_superset_cex :
    ¬ polylineSet [((0 : ℝ), (0 : ℝ)), (1, 1), (2, 0)] ⊆
        extend_fault [((0 : ℝ), (0 : ℝ)), (1, 1), (2, 0)] (1, 2) Set.univ 1000 := by
  intro hsub
  have hmem : ((1 : ℝ), (1 : ℝ)) ∈
      polylineSet [((0 : ℝ), (0 : ℝ)), (1, 1), (2, 0)] :=
    Or.inl (right_mem_seg (0, 0) (1, 1))
  have hout := hsub hmem
  rw [extend_fault_clip _ _ _ _ (Or.inl rfl), combinedCoords_bent,
    polylineSet_quad] at hout
  rcases hout with ⟨hP, -⟩
  rcases hP with h | h | h <;>
  · obtain ⟨t, ht0, ht1, heq⟩ := h
    rw [Prod.ext_iff] at heq
    have h2 := heq.2
    norm_num at h2

lemma not_on_chord_before_start (s e : RPoint) (u : ℝ)
    (hd : (e.1 - s.1, e.2 - s.2) ≠ ((0 : ℝ), 0)) (hu : 0 < u) :
    (s.1 - u * ((e.1 - s.1) * 1000), s.2 - u * ((e.2 - s.2) * 1000)) ∉
      seg s e := by
  rintro ⟨t, ht0, ht1, heq⟩
  rw [Prod.ext_iff] at heq
  obtain ⟨h1, h2⟩ := heq
  have hd' : e.1 - s.1 ≠ 0 ∨ e.2 - s.2 ≠ 0 := by
    by_contra hcon
    push_neg at hcon
    exact hd (Prod.ext_iff.2 ⟨hcon.1, hcon.2⟩)
  rcases hd' with h | h
  · have hz : (t + 1000 * u) * (e.1 - s.1) = 0 := by linear_combination -h1
    rcases mul_eq_zero.1 hz with h0 | h0
    · linarith
    · exact h h0
  · have hz : (t + 1000 * u) * (e.2 - s.2) = 0 := by linear_combination -h2
    rcases mul_eq_zero.1 hz with h0 | h0
    · linarith
    · exact h h0

lemma not_on_chord_after_end (s e : RPoint) (u : ℝ)
    (hd : (e.1 - s.1, e.2 - s.2) ≠ ((0 : ℝ), 0)) (hu : 0 < u) :
    (e.1 + u * ((e.1 - s.1) * 1000), e.2 + u * ((e.2 - s.2) * 1000)) ∉
      seg s e := by
  rintro ⟨t, ht0, ht1, heq⟩
  rw [Prod.ext_iff] at heq
  obtain ⟨h1, h2⟩ := heq
  have hd' : e.1 - s.1 ≠ 0 ∨ e.2 - s.2 ≠ 0 := by
    by_contra hcon
    push_neg at hcon
    exact hd (Prod.ext_iff.2 ⟨hcon.1, hcon.2⟩)
  rcases hd' with h | h
  · have hz : (t - 1 - 1000 * u) * (e.1 - s.1) = 0 := by linear_combination -h1
    rcases mul_eq_zero.1 hz with h0 | h0
    · linarith
    · exact h h0
  · have hz : (t - 1 - 1000 * u) * (e.2 - s.2) = 0 := by linear_combination -h2
    rcases mul_eq_zero.1 hz with h0 | h0
    · linarith
    · exact h h0

/-- Claim C3 (amended): the superset property holds only for two-vertex
(straight-chord) faults, because the code rebuilds the combined line
from the endpoints alone.  For a two-vertex fault `[s, e]` with a
non-degenerate chord, exactly one dangling endpoint, the original
already inside the region (the pipeline clips faults to the region
first), and some initial part of the outward extension inside the
region, the output is a strict superset (as a map point set) of the
original chord, lies entirely within the region, and still contains
both original endpoints — in particular the non-extended one. -/
theorem extender_one_dangling (s e : RPoint) (c1 c2 : ℕ)
    (region : Set RPoint)
    (hsub : polylineSet [s, e] ⊆ region)
    (hd : (e.1 - s.1, e.2 - s.2) ≠ ((0 : ℝ), 0))
    (hcase :
      (c1 = 1 ∧ c2 ≠ 1 ∧ ∃ u : ℝ, 0 < u ∧ u ≤ 1 ∧
        (s.1 - u * ((e.1 - s.1) * 1000), s.2 - u * ((e.2 - s.2) * 1000)) ∈
          region) ∨
      (c1 ≠ 1 ∧ c2 = 1 ∧ ∃ u : ℝ, 0 < u ∧ u ≤ 1 ∧
        (e.1 + u * ((e.1 - s.1) * 1000), e.2 + u * ((e.2 - s.2) * 1000)) ∈
          region)) :
    polylineSet [s, e] ⊂ extend_fault [s, e] (c1, c2) region 1000 ∧
      extend_fault [s, e] (c1, c2) region 1000 ⊆ region ∧
      e ∈ extend_fault [s, e] (c1, c2) region 1000 ∧
      s ∈ extend_fault [s, e] (c1, c2) region 1000 := by
  rcases hcase with ⟨h1, h2, u, hu0, hu1, hup⟩ | ⟨h1, h2, u, hu0, hu1, hup⟩
  · subst h1
    have hef : extend_fault [s, e] (1, c2) region 1000 =
        (seg s (s.1 - (e.1 - s.1) * 1000, s.2 - (e.2 - s.2) * 1000) ∪
          (seg (s.1 - (e.1 - s.1) * 1000, s.2 - (e.2 - s.2) * 1000) s ∪
            seg s e)) ∩ region := by
      rw [extend_fault_clip _ _ _ _ (Or.inl rfl),
        combinedCoords_start_dangling s e c2 h2 1000, polylineSet_quad]
    have horig : polylineSet [s, e] = seg s e := polylineSet_pair s e
    have hsubout : polylineSet [s, e] ⊆
        extend_fault [s, e] (1, c2) region 1000 := by
      intro p hp
      rw [hef]
      exact ⟨Or.inr (Or.inr (horig ▸ hp)), hsub hp⟩
    have hw : (s.1 - u * ((e.1 - s.1) * 1000), s.2 - u * ((e.2 - s.2) * 1000)) ∈
        extend_fault [s, e] (1, c2) region 1000 := by
      rw [hef]
      refine ⟨Or.inl ⟨u, hu0.le, hu1, ?_⟩, hup⟩
      exact Prod.ext_iff.2 ⟨by ring, by ring⟩
    refine ⟨?_, ?_, ?_, ?_⟩
    · rw [Set.ssubset_def]
      refine ⟨hsubout, fun hrev => ?_⟩
      exact not_on_chord_before_start s e u hd hu0 (horig ▸ hrev hw)
    · rw [hef]; exact Set.inter_subset_right
    · exact hsubout (horig ▸ right_mem_seg s e)
    · exact hsubout (horig ▸ left_mem_seg s e)
  · subst h2
    have hef : extend_fault [s, e] (c1, 1) region 1000 =
        (seg s e ∪
          (seg e (e.1 + (e.1 - s.1) * 1000, e.2 + (e.2 - s.2) * 1000) ∪
            seg (e.1 + (e.1 - s.1) * 1000, e.2 + (e.2 - s.2) * 1000) e)) ∩
          region := by
      rw [extend_fault_clip _ _ _ _ (Or.inr rfl),
        combinedCoords_end_dangling s e c1 h1 1000, polylineSet_quad]
    have horig : polylineSet [s, e] = seg s e := polylineSet_pair s e
    have hsubout : polylineSet [s, e] ⊆
        extend_fault [s, e] (c1, 1) region 1000 := by
      intro p hp
      rw [hef]
      exact ⟨Or.inl (horig ▸ hp), hsub hp⟩
    have hw : (e.1 + u * ((e.1 - s.1) * 1000), e.2 + u * ((e.2 - s.2) * 1000)) ∈
        extend_fault [s, e] (c1, 1) region 1000 := by
      rw [hef]
      refine ⟨Or.inr (Or.inl ⟨u, hu0.le, hu1, ?_⟩), hup⟩
      exact Prod.ext_iff.2 ⟨by ring, by ring⟩
    refine ⟨?_, ?_, ?_, ?_⟩
    · rw [Set.ssubset_def]
      refine ⟨hsubout, fun hrev => ?_⟩
      exact not_on_chord_after_end s e u hd hu0 (horig ▸ hrev hw)
    · rw [hef]; exact Set.inter_subset_right
    · exact hsubout (horig ▸ right_mem_seg s e)
    · exact hsubout (horig ▸ left_mem_seg s e)

/-- Witness for C3's amended theorem: the unit chord `(0,0)–(1,0)` with
a dangling start inside an unbounded region is strictly extended, stays
in the region, and keeps both original endpoints. -/
theorem extender_one_dangling_witness :
    polylineSet [((0 : ℝ), (0 : ℝ)), (1, 0)] ⊂
        extend_fault [((0 : ℝ), (0 : ℝ)), (1, 0)] (1, 2) Set.univ 1000 ∧
      extend_fault [((0 : ℝ), (0 : ℝ)), (1, 0)] (1, 2) Set.univ 1000 ⊆
        Set.univ ∧
      ((1 : ℝ), (0 : ℝ)) ∈
        extend_fault [((0 : ℝ), (0 : ℝ)), (1, 0)] (1, 2) Set.univ 1000 ∧
      ((0 : ℝ), (0 : ℝ)) ∈
        extend_fault [((0 : ℝ), (0 : ℝ)), (1, 0)] (1, 2) Set.univ 1000 :=
  extender_one_dangling (0, 0) (1, 0) 1 2 Set.univ
    (fun _ _ => trivial)
    (by norm_num [Prod.ext_iff])
    (Or.inl ⟨rfl, by norm_num, 1, one_pos, le_rfl, trivial⟩)

lemma extend_fault_empty_clip_core (coords : List RPoint) (conn : ℕ × ℕ)
    (region : Set RPoint) (factor : ℝ)
    (hext : conn.1 = 1 ∨ conn.2 = 1)
    (hclip : polylineSet (combinedCoords coords conn factor) ∩ region = ∅)
    (hne : coords ≠ []) :
    extend_fault coords conn region factor = ∅ ∧
      extend_fault coords conn region factor ≠ polylineSet coords := by
  have he : extend_fault coords conn region factor = ∅ :=
    (extend_fault_clip coords conn region factor hext).trans hclip
  refine ⟨he, ?_⟩
  rw [he]
  intro h0
  obtain ⟨p, hp⟩ := polylineSet_nonempty coords hne
  rw [← h0] at hp
  exact hp

/-- Claim C5 (counterexample): the claim says that when the clip of the
concatenated original-plus-extension line against the region is empty
or degenerate, the Extender falls back to the unmodified original
geometry.  There is no such fallback in `extend_fault`: with a region
disjoint from the combined line (here the empty region), the function
returns the empty clip itself, not the original fault. -/
theorem extender_empty_clip_cex :
    extend_fault [((0 : ℝ), (0 : ℝ)), (1, 0)] (1, 2) (∅ : Set RPoint) 1000 =
        ∅ ∧
      extend_fault [((0 : ℝ), (0 : ℝ)), (1, 0)] (1, 2) (∅ : Set RPoint) 1000 ≠
        polylineSet [((0 : ℝ), (0 : ℝ)), (1, 0)] :=
  extend_fault_empty_clip_core [((0 : ℝ), (0 : ℝ)), (1, 0)] (1, 2) ∅ 1000
    (Or.inl rfl) (Set.inter_empty _) (by simp)

/-- Claim C5 (amended): whenever an extension is made and the clip of
the combined polyline against the region comes out empty, the Extender
returns that empty clip as-is; it does not fall back to the original
geometry. -/
theorem extender_empty_clip_no_fallback (coords : List RPoint)
    (conn : ℕ × ℕ) (region : Set RPoint) (factor : ℝ)
    (hext : conn.1 = 1 ∨ conn.2 = 1)
    (hclip : polylineSet (combinedCoords coords conn factor) ∩ region = ∅)
    (hne : coords ≠ []) :
    extend_fault coords conn region factor = ∅ ∧
      extend_fault coords conn region factor ≠ polylineSet coords :=
  extend_fault_empty_clip_core coords conn region factor hext hclip hne

/-- Witness for C5's amended theorem, at a concrete fault whose clip
region is disjoint from the combined line. -/
theorem extender_empty_clip_no_fallback_witness :
    extend_fault [((2 : ℝ), (3 : ℝ)), (4, 3)] (1, 2) (∅ : Set RPoint) 1000 =
        ∅ ∧
      extend_fault [((2 : ℝ), (3 : ℝ)), (4, 3)] (1, 2) (∅ : Set RPoint) 1000 ≠
        polylineSet [((2 : ℝ), (3 : ℝ)), (4, 3)] :=
  extender_empty_clip_no_fallback [((2 : ℝ), (3 : ℝ)), (4, 3)] (1, 2) ∅ 1000
    (Or.inl rfl) (Set.inter_empty _) (by simp)

/-! ### Helper lemmas about the Projector loop -/

lemma uni_projectSegment (max_depth : ℝ) (d : DipRow) :
    (projectSegment max_depth d).uni = d.fault_id := rfl

lemma newFaultsAux_uni_not_existing (max_depth : ℝ) (existing : List String) :
    ∀ (ds : List DipRow) (f : Feature),
      f ∈ newFaultsAux max_depth existing ds → f.uni ∉ existing := by
  intro ds
  induction ds with
  | nil => intro f hf; simp [newFaultsAux] at hf
  | cons d ds ih =>
    intro f hf
    rw [newFaultsAux] at hf
    by_cases hex : d.fault_id ∈ existing
    · rw [if_pos hex] at hf
      exact ih f hf
    · rw [if_neg hex] at hf
      by_cases hskip : skipDip (radians d.apparent_d)
      · rw [if_pos hskip] at hf
        exact ih f hf
      · rw [if_neg hskip] at hf
        rcases List.mem_cons.1 hf with h | h
        · rw [h, uni_projectSegment]; exact hex
        · exact ih f h

lemma newFaultsAux_eq_nil (max_depth : ℝ) (existing : List String) :
    ∀ ds : List DipRow,
      (∀ d ∈ ds, d.fault_id ∈ existing ∨ skipDip (radians d.apparent_d)) →
      newFaultsAux max_depth existing ds = [] := by
  intro ds
  induction ds with
  | nil => intro _; rw [newFaultsAux]
  | cons d ds ih =>
    intro h
    rw [newFaultsAux]
    rcases h d (List.mem_cons_self d ds) with hex | hskip
    · rw [if_pos hex]
      exact ih (fun x hx => h x (List.mem_cons_of_mem d hx))
    · by_cases hex : d.fault_id ∈ existing
      · rw [if_pos hex]
        exact ih (fun x hx => h x (List.mem_cons_of_mem d hx))
      · rw [if_neg hex, if_pos hskip]
        exact ih (fun x hx => h x (List.mem_cons_of_mem d hx))

lemma newFaultsAux_emits (max_depth : ℝ) (existing : List String) :
    ∀ (ds : List DipRow) (d : DipRow), d ∈ ds →
      d.fault_id ∉ existing → ¬ skipDip (radians d.apparent_d) →
      d.fault_id ∈ (newFaultsAux max_depth existing ds).map Feature.uni := by
  intro ds
  induction ds with
  | nil => intro d hd; simp at hd
  | cons d0 ds ih =>
    intro d hd hex hskip
    rw [newFaultsAux]
    rcases List.mem_cons.1 hd with h | h
    · subst h
      rw [if_neg hex, if_neg hskip]
      simp [uni_projectSegment]
    · by_cases hex0 : d0.fault_id ∈ existing
      · rw [if_pos hex0]
        exact ih d h hex hskip
      · by_cases hskip0 : skipDip (radians d0.apparent_d)
        · rw [if_neg hex0, if_pos hskip0]
          exact ih d h hex hskip
        · rw [if_neg hex0, if_neg hskip0]
          simp only [List.map_cons, List.mem_cons]
          exact Or.inr (ih d h hex hskip)

/-- Claim C9: the Projector is idempotent.  First, because the set of
`Uni` tags already present is consulted before any segment is emitted,
a section that already contains a feature tagged with a fault id gets
no new segment for that fault.  Second, running the per-section pass a
second time on its own output changes nothing: every fault either was
emitted in the first run (so its tag now exists), was already present,
or is skipped again by the dip guard. -/
theorem projector_idempotent :
    (∀ (max_depth : ℝ) (feats : List Feature) (ds : List DipRow),
        ((newFaultsAux max_depth (feats.map Feature.uni) ds).map
            Feature.uni).all
          (fun u => !((feats.map Feature.uni).contains u)) = true) ∧
    (∀ (max_depth : ℝ) (feats : List Feature) (ds : List DipRow),
        processSection max_depth (processSection max_depth feats ds) ds =
          processSection max_depth feats ds) := by
  constructor
  · intro max_depth feats ds
    rw [List.all_eq_true]
    intro u hu
    rw [List.mem_map] at hu
    obtain ⟨f, hf, hfu⟩ := hu
    rw [Bool.not_eq_true']
    rw [← Bool.not_eq_true]
    intro hcon
    have hmem : u ∈ feats.map Feature.uni := by simpa using hcon
    exact newFaultsAux_uni_not_existing max_depth (feats.map Feature.uni) ds
      f hf (hfu ▸ hmem)
  · intro max_depth feats ds
    have hnil : newFaultsAux max_depth
        ((feats ++ newFaultsAux max_depth (feats.map Feature.uni) ds).map
          Feature.uni) ds = [] := by
      apply newFaultsAux_eq_nil
      intro d hd
      by_cases hex : d.fault_id ∈ feats.map Feature.uni
      · left
        rw [List.map_append]
        exact List.mem_append.2 (Or.inl hex)
      · by_cases hskip : skipDip (radians d.apparent_d)
        · right; exact hskip
        · left
          rw [List.map_append]
          exact List.mem_append.2
            (Or.inr (newFaultsAux_emits _ _ ds d hd hex hskip))
    simp only [processSection]
    rw [hnil, List.append_nil]

/-! ### Helper lemmas for concrete trigonometric values -/

lemma radians_45 : radians 45 = Real.pi / 4 := by
  rw [radians]; ring

lemma tan_radians_45 : Real.tan (radians 45) = 1 := by
  rw [radians_45, Real.tan_pi_div_four]

lemma skipDip_45_false : ¬ skipDip (radians 45) := by
  rw [skipDip]
  rintro (h | h)
  · rw [radians_45] at h
    exact Real.pi_ne_zero (by linarith)
  · rw [tan_radians_45, isclose] at h
    have h1 : |(1 : ℝ) - 0| = 1 := by norm_num
    rw [h1, abs_one, abs_zero,
      max_eq_left (by norm_num : (0 : ℝ) ≤ 1)] at h
    have h2 : max ((1e-9 : ℝ) * 1) 1e-6 < 1 := by
      apply max_lt <;> norm_num
    linarith

/-- Claim C8: for every dip record the Projector actually processes
(fault id not yet present, dip guard passed), the emitted feature is
the 2-vertex segment from `(distance, elevation)` to
`(distance + sign·|max_depth / tan(apparent dip)|, max_depth)` with
sign `-1` for dip side Left and `+1` for Right; in particular
`max_depth = -2000`, apparent dip `45°`, side Right at
`(distance 500, elevation 100)` yields the segment
`(500, 100) – (2500, -2000)`. -/
theorem projector_segment_formula :
    (∀ (max_depth : ℝ) (existing : List String) (ds : List DipRow)
        (d : DipRow), d.fault_id ∉ existing →
        ¬ skipDip (radians d.apparent_d) →
        newFaultsAux max_depth existing (d :: ds) =
          { geometry := [(d.distance, d.elevation),
              (d.distance + directionOf d.dip_side *
                |max_depth / Real.tan (radians d.apparent_d)|, max_depth)],
            uni := d.fault_id } :: newFaultsAux max_depth existing ds) ∧
    directionOf .L = -1 ∧ directionOf .R = 1 ∧
    newFaultsAux (-2000) [] [⟨500, 100, 45, .R, "F"⟩] =
      [⟨[((500 : ℝ), (100 : ℝ)), (2500, -2000)], "F"⟩] := by
  have hgen : ∀ (max_depth : ℝ) (existing : List String) (ds : List DipRow)
      (d : DipRow), d.fault_id ∉ existing →
      ¬ skipDip (radians d.apparent_d) →
      newFaultsAux max_depth existing (d :: ds) =
        { geometry := [(d.distance, d.elevation),
            (d.distance + directionOf d.dip_side *
              |max_depth / Real.tan (radians d.apparent_d)|, max_depth)],
          uni := d.fault_id } :: newFaultsAux max_depth existing ds := by
    intro max_depth existing ds d hex hskip
    rw [newFaultsAux, if_neg hex, if_neg hskip]
    rfl
  refine ⟨hgen, rfl, rfl, ?_⟩
  rw [hgen (-2000) [] [] ⟨500, 100, 45, .R, "F"⟩ (by simp) skipDip_45_false,
    newFaultsAux]
  rw [tan_radians_45]
  norm_num [directionOf, abs_of_nonpos]

/-- Witness for C8's general conjunct: a Left-side dip record with a
fresh fault id is emitted as the formula segment. -/
theorem projector_segment_formula_witness :
    newFaultsAux (-1000) ["G"] ([⟨7, 3, 45, .L, "F2"⟩] : List DipRow) =
      { geometry := [((7 : ℝ), (3 : ℝ)),
          (7 + directionOf .L * |(-1000 : ℝ) / Real.tan (radians 45)|,
            -1000)],
        uni := "F2" } :: newFaultsAux (-1000) ["G"] [] :=
  projector_segment_formula.1 (-1000) ["G"] [] ⟨7, 3, 45, .L, "F2"⟩
    (by simp) skipDip_45_false

lemma degrees_pi_div_four : degrees (Real.pi / 4) = 45 := by
  rw [degrees]
  have hpi : Real.pi ≠ 0 := Real.pi_ne_zero
  field_simp
  ring

lemma radians_90 : radians 90 = Real.pi / 2 := by
  rw [radians]; ring

lemma radians_30 : radians 30 = Real.pi / 6 := by
  rw [radians]; ring

/-- Claim C1: for in-domain inputs (`0 ≤ θ ≤ 180`, `0 ≤ δ ≤ 90`) the
apparent-dip computation returns `degrees(atan(sin θ · tan δ))`; any
input outside those domains raises the out-of-range `ValueError`; and
the two concrete scenarios hold: `θ = 90°, δ = 45°` gives exactly `45°`
and `θ = 30°, δ = 45°` gives exactly `degrees(atan(1/2))` (≈ 26.57°). -/
theorem apparent_dip_formula :
    (∀ angle_deg dip_deg : ℝ, 0 ≤ angle_deg → angle_deg ≤ 180 →
      0 ≤ dip_deg → dip_deg ≤ 90 →
      calculate_apparent_dip angle_deg dip_deg =
        .ok (degrees (Real.arctan
          (Real.sin (radians angle_deg) * Real.tan (radians dip_deg))))) ∧
    (∀ angle_deg dip_deg : ℝ,
      angle_deg < 0 ∨ 180 < angle_deg ∨ dip_deg < 0 ∨ 90 < dip_deg →
      calculate_apparent_dip angle_deg dip_deg = .error .outOfRangeError) ∧
    calculate_apparent_dip 90 45 = .ok 45 ∧
    calculate_apparent_dip 30 45 =
      .ok (degrees (Real.arctan (1 / 2))) := by
  have hok : ∀ angle_deg dip_deg : ℝ, 0 ≤ angle_deg → angle_deg ≤ 180 →
      0 ≤ dip_deg → dip_deg ≤ 90 →
      calculate_apparent_dip angle_deg dip_deg =
        .ok (degrees (Real.arctan
          (Real.sin (radians angle_deg) * Real.tan (radians dip_deg)))) := by
    intro a d h1 h2 h3 h4
    rw [calculate_apparent_dip, if_neg]
    rw [not_or, not_not, not_not]
    exact ⟨⟨h1, h2⟩, ⟨h3, h4⟩⟩
  refine ⟨hok, ?_, ?_, ?_⟩
  · intro a d h
    rw [calculate_apparent_dip, if_pos]
    rcases h with h | h | h | h
    · exact Or.inl (fun hc => absurd hc.1 (not_le.2 h))
    · exact Or.inl (fun hc => absurd hc.2 (not_le.2 h))
    · exact Or.inr (fun hc => absurd hc.1 (not_le.2 h))
    · exact Or.inr (fun hc => absurd hc.2 (not_le.2 h))
  · rw [hok 90 45 (by norm_num) (by norm_num) (by norm_num) (by norm_num),
      radians_90, Real.sin_pi_div_two, tan_radians_45, one_mul,
      Real.arctan_one, degrees_pi_div_four]
  · rw [hok 30 45 (by norm_num) (by norm_num) (by norm_num) (by norm_num),
      radians_30, Real.sin_pi_div_six, tan_radians_45, mul_one]

/-- Witness for C1: the in-range branch applied at `θ = 10°, δ = 20°`
and the out-of-range branch applied at `θ = 200°`. -/
theorem apparent_dip_formula_witness :
    calculate_apparent_dip 10 20 =
        .ok (degrees (Real.arctan
          (Real.sin (radians 10) * Real.tan (radians 20)))) ∧
      calculate_apparent_dip 200 45 = .error .outOfRangeError :=
  ⟨apparent_dip_formula.1 10 20 (by norm_num) (by norm_num) (by norm_num)
      (by norm_num),
    apparent_dip_formula.2.1 200 45 (Or.inr (Or.inl (by norm_num)))⟩

lemma hypotQ_one_zero : hypotQ (1, 0) = 1 := by
  rw [hypotQ]; push_cast; norm_num

lemma hypotQ_one_one : hypotQ (1, 1) = Real.sqrt 2 := by
  rw [hypotQ]; push_cast; norm_num

lemma sqrt_two_le_two : Real.sqrt 2 ≤ 2 := by
  have h4 : Real.sqrt 4 = 2 := by
    rw [show (4 : ℝ) = 2 ^ 2 by norm_num,
      Real.sqrt_sq (by norm_num : (0 : ℝ) ≤ 2)]
  calc Real.sqrt 2 ≤ Real.sqrt 4 := Real.sqrt_le_sqrt (by norm_num)
    _ = 2 := h4

lemma angle_parallel : angleOfVecs (1, 0) (1, 0) = .ok 0 := by
  have hc : ¬ (hypotQ (1, 0) = 0 ∨ hypotQ ((1 : ℚ), (0 : ℚ)) = 0) := by
    simp [hypotQ_one_zero]
  rw [angleOfVecs, if_neg hc]
  congr 1
  rw [hypotQ_one_zero]
  push_cast
  norm_num [min_def, max_def, Real.arccos_one, degrees]

lemma angle_diag : angleOfVecs (1, 0) (1, 1) = .ok 45 := by
  have hs2 : Real.sqrt 2 ≠ 0 := Real.sqrt_ne_zero'.mpr (by norm_num)
  have hc : ¬ (hypotQ (1, 0) = 0 ∨ hypotQ ((1 : ℚ), (1 : ℚ)) = 0) := by
    rw [hypotQ_one_zero, hypotQ_one_one]
    simp [hs2]
  rw [angleOfVecs, if_neg hc, hypotQ_one_zero, hypotQ_one_one]
  congr 1
  push_cast
  have hval : ((1 : ℝ) * 1 + 0 * 1) / (1 * Real.sqrt 2) = Real.sqrt 2 / 2 := by
    field_simp
  rw [hval]
  have hmin : min (1 : ℝ) (Real.sqrt 2 / 2) = Real.sqrt 2 / 2 :=
    min_eq_right (by linarith [sqrt_two_le_two])
  have hmax : max (-1 : ℝ) (Real.sqrt 2 / 2) = Real.sqrt 2 / 2 :=
    max_eq_right (le_trans (by norm_num : (-1 : ℝ) ≤ 0) (by positivity))
  rw [hmin, hmax]
  have hacos : Real.arccos (Real.sqrt 2 / 2) = Real.pi / 4 := by
    rw [← Real.cos_pi_div_four]
    exact Real.arccos_cos (by positivity) (by linarith [Real.pi_pos])
  rw [hacos, degrees_pi_div_four]

/-- Claim C10: when either argument of the angle computation is a
multi-part polyline, the angle is computed from the first and last
vertex of its FIRST part only — all other parts are ignored — and this
is observable: for the two-part fault
`[(0,0)–(1,0)], [(1,0)–(1,1)]` against the section `(0,0)–(1,0)`, the
code returns `0°` (the first part is parallel to the section), while
the fault's overall first-to-last chord `(0,0)–(1,1)` makes `45°` with
the section. -/
theorem angle_uses_first_part_only :
    (∀ (p : List QPoint) (ps : List (List QPoint)) (g2 : PyGeom),
      calculate_angle (.multiLineString (p :: ps)) g2 =
        calculate_angle (.lineString p) g2) ∧
    (∀ (g1 : PyGeom) (p : List QPoint) (ps : List (List QPoint)),
      calculate_angle g1 (.multiLineString (p :: ps)) =
        calculate_angle g1 (.lineString p)) ∧
    calculate_angle (.lineString [(0, 0), (1, 0)])
        (.multiLineString [[(0, 0), (1, 0)], [(1, 0), (1, 1)]]) = .ok 0 ∧
    calculate_angle (.lineString [(0, 0), (1, 0)])
        (.lineString [(0, 0), (1, 1)]) = .ok 45 ∧
    (0 : ℝ) ≠ 45 := by
  have hcv0 : chordVec (((0 : ℚ), (0 : ℚ)), ((1 : ℚ), (0 : ℚ))) = (1, 0) := by
    norm_num [chordVec, Prod.ext_iff]
  have hcv1 : chordVec (((0 : ℚ), (0 : ℚ)), ((1 : ℚ), (1 : ℚ))) = (1, 1) := by
    norm_num [chordVec, Prod.ext_iff]
  refine ⟨?_, ?_, ?_, ?_, by norm_num⟩
  · intro p ps g2; rfl
  · intro g1 p ps
    cases g1 with
    | lineString c => rfl
    | multiLineString parts =>
      cases parts with
      | nil => rfl
      | cons q qs => rfl
  · show angleOfVecs (chordVec (((0 : ℚ), (0 : ℚ)), ((1 : ℚ), (0 : ℚ))))
      (chordVec (((0 : ℚ), (0 : ℚ)), ((1 : ℚ), (0 : ℚ)))) = .ok 0
    rw [hcv0]
    exact angle_parallel
  · show angleOfVecs (chordVec (((0 : ℚ), (0 : ℚ)), ((1 : ℚ), (0 : ℚ))))
      (chordVec (((0 : ℚ), (0 : ℚ)), ((1 : ℚ), (1 : ℚ)))) = .ok 45
    rw [hcv0, hcv1]
    exact angle_diag

/-! ### Helper lemmas and data for the batch-abort behaviour -/

lemma except_bind_ok {α β : Type} (a : α) (f : α → Except PyError β) :
    (Except.ok a : Except PyError α) >>= f = f a := rfl

lemma except_bind_error {α β : Type} (e : PyError)
    (f : α → Except PyError β) :
    (Except.error e : Except PyError α) >>= f = .error e := rfl

lemma processPair_error_aborts (inter : InterFun) (dem : DEM)
    (sec : CrossSection) (secs : List CrossSection)
    (flt : FaultRow) (flts : List FaultRow) (e : PyError)
    (h : processPair inter dem sec flt = .error e) :
    process_intersections inter dem (sec :: secs) (flt :: flts) =
      .error e := by
  simp only [process_intersections, List.mapM_cons, h,
    except_bind_error, except_bind_ok]

/-- A section along `y = 9` inside `demTiny`'s coverage. -/
def secW : CrossSection := ⟨"S", .lineString [(0, 9), (2, 9)]⟩

/-- A fault whose trace runs up and back down the line `x = 1`: it has
genuine extent (it does cross the section), but its first-to-last chord
is zero-length, so `calculate_angle` raises the zero-length
`ValueError`. -/
def faultBad : FaultRow :=
  ⟨"B", .lineString [(1, 8), (1, 10), (1, 8)], 45, 0, .R, "NE"⟩

/-- A well-behaved fault crossing the same section at `x = 3/2`. -/
def faultGood : FaultRow :=
  ⟨"G", .lineString [(3/2, 8), (3/2, 10)], 30, 0, .R, "NE"⟩

/-- The shapely intersection results for `secW` against the two faults:
`faultBad` crosses at `(1, 9)`, `faultGood` at `(3/2, 9)`. -/
def interW : InterFun := fun _ flt =>
  if flt.fault = "B" then .single (1, 9) else .single (3/2, 9)

lemma demTiny_index_19 : demIndex demTiny 1 9 = (1, 1) := by
  have h1 : ((demTiny.y0 - 9) / demTiny.py : ℚ) = ((1 : ℤ) : ℚ) := by
    norm_num [demTiny]
  have h2 : ((1 - demTiny.x0) / demTiny.px : ℚ) = ((1 : ℤ) : ℚ) := by
    norm_num [demTiny]
  rw [demIndex, h1, h2, Int.floor_intCast]

lemma get_elevation_19 : get_elevation 1 9 demTiny = .ok 4 := by
  rw [get_elevation, demTiny_index_19]
  rfl

lemma hypotQ_zero : hypotQ (0, 0) = 0 := by
  rw [hypotQ]; push_cast; norm_num

lemma angle_secW_faultBad :
    calculate_angle secW.geometry faultBad.geometry =
      .error .zeroLengthError := by
  show angleOfVecs (chordVec (((0 : ℚ), (9 : ℚ)), ((2 : ℚ), (9 : ℚ))))
    (chordVec (((1 : ℚ), (8 : ℚ)), ((1 : ℚ), (8 : ℚ)))) = _
  have hz : chordVec (((1 : ℚ), (8 : ℚ)), ((1 : ℚ), (8 : ℚ))) = (0, 0) := by
    norm_num [chordVec, Prod.ext_iff]
  rw [hz, angleOfVecs, if_pos (Or.inr hypotQ_zero)]

lemma geometriesOf_interW_bad :
    geometriesOf (interW secW faultBad) = [((1 : ℚ), (9 : ℚ))] := rfl

lemma geomCoords_secW :
    geomCoords secW.geometry = .ok [((0 : ℚ), (9 : ℚ)), (2, 9)] := rfl

lemma processPair_bad :
    processPair interW demTiny secW faultBad = .error .zeroLengthError := by
  simp only [processPair, geometriesOf_interW_bad, List.mapM_cons,
    List.mapM_nil, processPoint, get_elevation_19, geomCoords_secW,
    angle_secW_faultBad, except_bind_ok, except_bind_error]

/-- Claim C7 (counterexample): the claim says a geometry error on one
(section, fault) pair only skips that pair, and records for the
remaining pairs are still produced.  The loop has no exception
handling: with `faultBad` (zero-length first-to-last chord) first and
the well-behaved `faultGood` second, the whole run returns the
zero-length `ValueError` — no record is produced for `faultGood` (or
anything else). -/
theorem batch_abort_cex :
    process_intersections interW demTiny [secW] [faultBad, faultGood] =
      .error .zeroLengthError :=
  processPair_error_aborts interW demTiny secW [] faultBad [faultGood]
    .zeroLengthError processPair_bad

/-- Claim C7 (amended): a geometry or range error raised while
processing one (section, fault) pair propagates out of
`process_intersections` and aborts the whole batch: the run returns
that error, and no records are produced for any pair. -/
theorem batch_error_aborts (inter : InterFun) (dem : DEM)
    (sec : CrossSection) (secs : List CrossSection)
    (flt : FaultRow) (flts : List FaultRow) (e : PyError)
    (h : processPair inter dem sec flt = .error e) :
    process_intersections inter dem (sec :: secs) (flt :: flts) =
      .error e :=
  processPair_error_aborts inter dem sec secs flt flts e h

/-- Witness for C7's amended theorem: the zero-chord fault alone aborts
its batch. -/
theorem batch_error_aborts_witness :
    process_intersections interW demTiny [secW] [faultBad] =
      .error .zeroLengthError :=
  batch_error_aborts interW demTiny secW [] faultBad [] .zeroLengthError
    processPair_bad
